import Mathlib

/-!
Shallow embedding of the voxel-art bacteriophage animation (src/index.js).

Conventions used throughout:
* JavaScript numbers are modelled exactly: loop counters and lattice
  coordinates as `Int`/`Nat`, fractional constants (`0.3`, `1.6`, ...) as `Rat`,
  and quantities that flow through `Math.sin` / `Math.cos` / `Math.sqrt` as
  `Real` when a transcendental fact is needed.
* `Math.random()` draws and the trigonometric noise gates that feed boolean
  admission tests are modelled as oracle parameters (`adm`, `idO`,
  `jitterO`, `cosO`, `sinO`): every theorem quantifies over all oracles, so it
  covers every run of the nondeterministic source.
* JavaScript `Array.prototype.sort` with comparator `(a, b) => b.y - a.y` is a
  stable sort by descending `y`; it is modelled with `List.insertionSort` over
  the relation `b.y ≤ a.y`, which is also stable.
-/

/-- A 3-component vector of rationals (positions and scales handed to the
instanced mesh). -/
structure Vec3 where
  x : ℚ
  y : ℚ
  z : ℚ
deriving DecidableEq, Repr

/-- One instance transform: the position and the nonuniform scale written by
`dummy.position.set` / `dummy.scale.set` before `setMatrixAt`. -/
structure Transform where
  pos : Vec3
  scale : Vec3
deriving DecidableEq, Repr

/-- Per-instance color of the ribosome batch: `0xffffff` (white, base) or
`0x00aaff` (blue, virus). -/
inductive Color where
  | white : Color
  | blue : Color
deriving DecidableEq, Repr

/-- An integer-lattice voxel, as produced by the triple-nested generator scans
(`generateCapsidVoxels`, `generateHeadDNAVoxels`, the bacterium parts). -/
structure Vox where
  x : ℤ
  y : ℤ
  z : ℤ
deriving DecidableEq, Repr

/-- A voxel of the injected-DNA batch: real-valued coordinates (the helical
stream uses `Math.cos`/`Math.sin`), and the optional replication-group id that
only pool voxels carry. -/
structure IVoxel where
  x : ℚ
  y : ℚ
  z : ℚ
  id : Option ℕ
deriving DecidableEq, Repr

/-- A flagella voxel: position plus the extended animation data stored by
`generateFlagellaVoxels` (`t`, `index`, `leanX`, `leanZ`). -/
structure FVoxel where
  x : ℚ
  y : ℚ
  z : ℚ
  t : ℚ
  index : ℕ
  leanX : ℚ
  leanZ : ℚ
deriving DecidableEq, Repr

/-- Inclusive integer range `[a..b]`, the index set of a JS
`for (let i = a; i <= b; i++)` loop (empty when `b < a`). -/
def intRange (a b : ℤ) : List ℤ :=
  (List.range (b - a + 1).toNat).map (fun i => a + (i : ℤ))

/-- Helper `squash e y`: the `dy` computed at the top of the capsid/head scans
(`if (y > 0) dy = Math.max(0, y - elongation); if (y < 0) dy = Math.min(0, y + elongation)`). -/
def squash (e y : ℤ) : ℤ :=
  if y > 0 then max 0 (y - e) else if y < 0 then min 0 (y + e) else y

/-- Elongated-sphere bound of the capsid scan: `distSq < radius * radius`. -/
def sphereCheck (r e x y z : ℤ) : Bool :=
  let dy := squash e y
  decide (x * x + dy * dy + z * z < r * r)

/-- Octahedral bound: `|x| + |dy| + |z| < radius * 1.6`, compared exactly with
both sides scaled by 5 (`1.6 = 8/5`) so the test stays on `ℤ`;
`octaCheck_eq_rat` below proves it equal to the literal rational comparison. -/
def octaCheck (r e x y z : ℤ) : Bool :=
  let dy := squash e y
  decide (5 * (|x| + |dy| + |z|) < 8 * r)

/-- Surface (shell) condition of the capsid scan:
`innerDistSq >= innerR * innerR || |x|+|dy|+|z| >= radius*1.6 - 2`
with `innerR = radius - 1.5` (note the source computes `innerDistSq` with the
same squashed `dy` as `distSq`).  Both comparisons are scaled to `ℤ`
(`d ≥ (r - 3/2)^2  ↔  4*d ≥ (2*r - 3)^2` and
`s ≥ 1.6*r - 2  ↔  5*s ≥ 8*r - 10`); `isSurface_eq_rat` below proves the
equivalence with the literal rational comparisons. -/
def isSurface (r e x y z : ℤ) : Bool :=
  let dy := squash e y
  let distSq := x * x + dy * dy + z * z
  decide (4 * distSq ≥ (2 * r - 3) ^ 2) || decide (5 * (|x| + |dy| + |z|) ≥ 8 * r - 10)

/-- The scaled octahedral test is exactly the source's rational comparison. -/
theorem octaCheck_eq_rat (r e x y z : ℤ) :
    octaCheck r e x y z =
      decide (((|x| + |squash e y| + |z| : ℤ) : ℚ) < (r : ℚ) * (16 / 10)) := by
  simp only [octaCheck, decide_eq_decide]
  constructor
  · intro h
    have h4 : ((5 * (|x| + |squash e y| + |z|) : ℤ) : ℚ) < ((8 * r : ℤ) : ℚ) := by
      exact_mod_cast h
    push_cast at h4 ⊢
    linarith
  · intro h
    push_cast at h
    have h4 : ((5 * (|x| + |squash e y| + |z|) : ℤ) : ℚ) < ((8 * r : ℤ) : ℚ) := by
      push_cast
      linarith
    exact_mod_cast h4

/-- The scaled surface test is exactly the source's rational comparison. -/
theorem isSurface_eq_rat (r e x y z : ℤ) :
    isSurface r e x y z =
      (decide ((((x * x + squash e y * squash e y + z * z : ℤ)) : ℚ) ≥
          ((r : ℚ) - 3 / 2) * ((r : ℚ) - 3 / 2)) ||
        decide (((|x| + |squash e y| + |z| : ℤ) : ℚ) ≥ (r : ℚ) * (16 / 10) - 2)) := by
  simp only [isSurface]
  congr 1
  · simp only [decide_eq_decide]
    have key : ((2 * (r : ℚ) - 3)) ^ 2 = 4 * (((r : ℚ) - 3 / 2) * ((r : ℚ) - 3 / 2)) := by
      ring
    constructor
    · intro h
      have h4 : (((2 * r - 3) ^ 2 : ℤ) : ℚ) ≤
          ((4 * (x * x + squash e y * squash e y + z * z) : ℤ) : ℚ) := by exact_mod_cast h
      push_cast at h4 ⊢
      nlinarith [key]
    · intro h
      push_cast at h
      have h4 : (((2 * r - 3) ^ 2 : ℤ) : ℚ) ≤
          ((4 * (x * x + squash e y * squash e y + z * z) : ℤ) : ℚ) := by
        push_cast
        nlinarith [key]
      exact_mod_cast h4
  · simp only [decide_eq_decide]
    constructor
    · intro h
      have h4 : (((8 * r - 10) : ℤ) : ℚ) ≤
          ((5 * (|x| + |squash e y| + |z|) : ℤ) : ℚ) := by exact_mod_cast h
      push_cast at h4 ⊢
      linarith
    · intro h
      push_cast at h
      have h4 : (((8 * r - 10) : ℤ) : ℚ) ≤
          ((5 * (|x| + |squash e y| + |z|) : ℤ) : ℚ) := by
        push_cast
        linarith
      exact_mod_cast h4

/-- The full emission test of `generateCapsidVoxels` at one lattice point. -/
def capsidEmit (r e x y z : ℤ) : Bool :=
  sphereCheck r e x y z && octaCheck r e x y z && isSurface r e x y z

/-- Source `generateCapsidVoxels(radius, elongation)`: triple scan over the bounding
box, pushing `{x, y: y + 30, z}` whenever the emission test passes. -/
def generateCapsidVoxels (r e : ℤ) : List Vox :=
  (intRange (-r) r).flatMap fun x =>
    (intRange (-r - e) (r + e)).flatMap fun y =>
      (intRange (-r) r).filterMap fun z =>
        if capsidEmit r e x y z then some ⟨x, y + 30, z⟩ else none

/-- Filled-structure bound of the head-DNA scan:
`distSq < r2` with `r2 = (radius - 2) * (radius - 2)`. -/
def headSphereCheck (r e x y z : ℤ) : Bool :=
  let dy := squash e y
  decide (x * x + dy * dy + z * z < (r - 2) * (r - 2))

/-- The full emission test of `generateHeadDNAVoxels` at one lattice point;
`adm` is the oracle for `noise > 0.1 || Math.random() > 0.9`. -/
def headEmit (r e : ℤ) (adm : ℤ → ℤ → ℤ → Bool) (x y z : ℤ) : Bool :=
  headSphereCheck r e x y z && octaCheck r e x y z && adm x y z

/-- Descending-`y` order on integer voxels: the JS comparator
`(a, b) => b.y - a.y` puts `a` before `b` exactly when `b.y ≤ a.y`. -/
abbrev descY (a b : Vox) : Prop := b.y ≤ a.y

instance : DecidableRel descY := fun a b => inferInstanceAs (Decidable (b.y ≤ a.y))

instance : IsTotal Vox descY := ⟨fun a b => le_total b.y a.y⟩

instance : IsTrans Vox descY := ⟨fun _ _ _ h1 h2 => le_trans h2 h1⟩

/-- Source `generateHeadDNAVoxels(radius, elongation)`: the filled scan, gated by the
noise-or-random admission oracle, then `voxels.sort((a, b) => b.y - a.y)`. -/
def generateHeadDNAVoxels (r e : ℤ) (adm : ℤ → ℤ → ℤ → Bool) : List Vox :=
  ((intRange (-r) r).flatMap fun x =>
    (intRange (-r - e) (r + e)).flatMap fun y =>
      (intRange (-r) r).filterMap fun z =>
        if headEmit r e adm x y z then some ⟨x, y + 30, z⟩ else none).insertionSort descY

/-- Descending-`y` order on injected-DNA voxels. -/
abbrev descYQ (a b : IVoxel) : Prop := b.y ≤ a.y

instance : DecidableRel descYQ := fun a b => inferInstanceAs (Decidable (b.y ≤ a.y))

instance : IsTotal IVoxel descYQ := ⟨fun a b => le_total b.y a.y⟩

instance : IsTrans IVoxel descYQ := ⟨fun _ _ _ h1 h2 => le_trans h2 h1⟩

/-- JS `Math.round` on an exact rational (round half toward positive infinity). -/
def jsRound (q : ℚ) : ℤ := ⌊q + 1 / 2⌋

/-- Source `generateInjectedDNAVoxels()`: the double-helix stream (the loop
`for (let y = 18; y >= streamBottom; y -= 0.3)` with
`streamBottom = -70 + 14 - 2 = -58` runs for `k = 0..253`, since
`18 - 0.3*253 = -57.9 ≥ -58 > 18 - 0.3*254`), concatenated with the spherical
noise-gated pool (`poolRadius = 14`, centred at `y = -70`), then
`voxels.sort((a, b) => b.y - a.y)`.  `cosO`/`sinO` are `Math.cos`/`Math.sin`
oracles, `piQ` stands for `Math.PI`, `admP` for the pool admission gate
`noise > 0 || Math.random() > 0.8`, and `idO` for
`Math.floor(Math.random() * 3)`. -/
def generateInjectedDNAVoxels (cosO sinO : ℚ → ℚ) (piQ : ℚ)
    (admP : ℤ → ℤ → ℤ → Bool) (idO : ℤ → ℤ → ℤ → ℕ) : List IVoxel :=
  let stream : List IVoxel :=
    (List.range 254).flatMap fun k =>
      let y : ℚ := 18 - (3 / 10) * (k : ℚ)
      let angle := y * (12 / 10)
      let r : ℚ := 1
      [⟨cosO angle * r, y, sinO angle * r, none⟩,
       ⟨cosO (angle + piQ) * r, y, sinO (angle + piQ) * r, none⟩] ++
        (if |y - (jsRound y : ℚ)| < 1 / 10 then [⟨0, y, 0, none⟩] else [])
  let pool : List IVoxel :=
    (intRange (-14) 14).flatMap fun x =>
      (intRange (-14) 14).flatMap fun y =>
        (intRange (-14) 14).filterMap fun z =>
          if x * x + y * y + z * z < 14 * 14 then
            if admP x y z then some ⟨(x : ℚ), (y : ℚ) + (-70), (z : ℚ), some (idO x y z)⟩
            else none
          else none
  (stream ++ pool).insertionSort descYQ

/-- Phase 1 (Injection) duration in milliseconds: `phase1Duration = 12000`. -/
def phase1Duration : ℚ := 12000

/-- Phase 2 (Takeover) duration in milliseconds: `phase2Duration = 10000`. -/
def phase2Duration : ℚ := 10000

/-- One full cycle: `totalDuration = phase1Duration + phase2Duration`. -/
def totalDuration : ℚ := phase1Duration + phase2Duration

/-- The shared per-window progress pattern of the animators (sheath, head DNA,
nucleoid, replication, hijack):
`let p = 0; if (t > end) p = 1; else if (t > start) p = (t - start)/(end - start)`. -/
def phaseProgress (s e t : ℚ) : ℚ :=
  if t > e then 1 else if t > s then (t - s) / (e - s) else 0

/-- Constant `landingEnd = 0.20` (written `mkRat 20 100` so it evaluates in the
kernel; `Rat.mkRat_eq_div` identifies it with `20 / 100`). -/
def landingEnd : ℚ := mkRat 20 100

/-- The landing animator's `phageGroup.position.y` as a function of `t1`:
cubic-out ease from 50 down by 53 while `t1 < landingEnd`, else `-3`. -/
def landingOffset (t1 : ℚ) : ℚ :=
  if t1 < landingEnd then
    let landP := t1 / landingEnd
    let ease := 1 - (1 - landP) ^ 3
    50 - 53 * ease
  else -3

/-- The head-DNA draining animator (block D of `animate`): given the window
progress, hide the first `Math.floor(count * progress)` instances at the
`(0, 10000, 0)` sentinel with zero scale, and render the rest at their
original `x`/`z` with `y` lowered by the pressure offset `progress * 2.0`. -/
def headDNADrainFrame (progress : ℚ) (voxels : List Vox) : List Transform :=
  let count := voxels.length
  let drainedCount : ℤ := ⌊(count : ℚ) * progress⌋
  (List.range count).map fun (i : ℕ) =>
    if (i : ℤ) < drainedCount then
      { pos := ⟨0, 10000, 0⟩, scale := ⟨0, 0, 0⟩ }
    else
      let v := voxels.getD i ⟨0, 0, 0⟩
      { pos := ⟨(v.x : ℚ), (v.y : ℚ) - progress * 2, (v.z : ℚ)⟩, scale := ⟨1, 1, 1⟩ }

/-- One injected-DNA instance under the phase-1 flow animator (block E of
`animate`): visible exactly when `flowFrontY <= v.y <= flowBackY`
(`isReached && isNotPassed` in the source), with the extra spin rotation for
stream voxels above `y = -55`; hidden instances go to `(0, -10000, 0)` with
zero scale. -/
def injectedFlowTransform (cosO sinO : ℚ → ℚ) (spin flowFrontY flowBackY : ℚ)
    (v : IVoxel) : Transform :=
  if v.y ≥ flowFrontY ∧ v.y ≤ flowBackY then
    if v.y > -55 then
      let c := cosO (spin + v.y * (2 / 10))
      let s := sinO (spin + v.y * (2 / 10))
      { pos := ⟨v.x * c - v.z * s, v.y, v.x * s + v.z * c⟩, scale := ⟨1, 1, 1⟩ }
    else
      { pos := ⟨v.x, v.y, v.z⟩, scale := ⟨1, 1, 1⟩ }
  else
    { pos := ⟨0, -10000, 0⟩, scale := ⟨0, 0, 0⟩ }

/-- One pool voxel under the phase-2 replication animator: translate toward
the fixed per-group target with the cubic ease `1 - (1 - rP)^3`
(`v.id || 0` reads the stored group id, `0` when absent). -/
def injectedReplicationTransform (t2 : ℚ) (v : IVoxel) : Transform :=
  let rP := phaseProgress (3 / 10) (6 / 10) t2
  let easeRep := 1 - (1 - rP) ^ 3
  let groupId := v.id.getD 0
  let target : Vec3 :=
    if groupId = 0 then ⟨-20, 0, -10⟩ else if groupId = 1 then ⟨20, 0, -10⟩ else ⟨0, 5, 20⟩
  { pos := ⟨v.x + target.x * easeRep, v.y + target.y * easeRep, v.z + target.z * easeRep⟩,
    scale := ⟨1, 1, 1⟩ }

/-- The per-frame update of the injected-DNA instance array.  The phase-1 flow
branch (guarded by `elapsed < phase1Duration`) rewrites every instance; the
phase-2 replication branch (guarded by `elapsed > phase1Duration`) rewrites
only pool voxels (`v.y < -55`) and leaves every other instance's transform as
it was; at `elapsed = phase1Duration` neither branch runs. -/
def injectedDNAFrame (cosO sinO : ℚ → ℚ) (elapsed : ℚ) (voxels : List IVoxel)
    (state : List Transform) : List Transform :=
  if elapsed < phase1Duration then
    let t1 := min 1 (elapsed / phase1Duration)
    let frontProgress := if t1 > 40 / 100 then min 1 ((t1 - 40 / 100) / (85 / 100 - 40 / 100)) else 0
    let flowFrontY := 15 - frontProgress * (15 - (-85))
    let backProgress := if t1 > 70 / 100 then min 1 ((t1 - 70 / 100) / (95 / 100 - 70 / 100)) else 0
    let flowBackY := 15 - backProgress * (15 - (-55))
    let spin := elapsed * (1 / 100)
    voxels.map (injectedFlowTransform cosO sinO spin flowFrontY flowBackY)
  else if elapsed > phase1Duration then
    let t2 := (elapsed - phase1Duration) / phase2Duration
    List.zipWith (fun v s => if v.y < -55 then injectedReplicationTransform t2 v else s)
      voxels state
  else state

/-- The flagella undulation animator (one instance): re-run the helical logic
with time offset `now * 0.003`, amplitude ramped by
`attachmentEase = min(1, t / 10)`; the y coordinate and unit scale are written
back unchanged. -/
def flagellaAnimate (sinO cosO : ℚ → ℚ) (now : ℚ) (v : FVoxel) : Transform :=
  let time := now * (3 / 1000)
  let twist := v.t * (15 / 100) + (v.index : ℚ) * (25 / 10) - time
  let attachmentEase := min 1 (v.t / 10)
  let amp := (35 / 10) * attachmentEase
  { pos := ⟨v.leanX + sinO twist * amp, v.y, v.leanZ + cosO twist * amp⟩, scale := ⟨1, 1, 1⟩ }

/-- The hijack-wave color of one ribosome instance:
`Math.sqrt((v.x-0)^2 + (v.y-(-70))^2 + (v.z-0)^2) < hP * 100` selects the
virus color, else the base white. -/
noncomputable def hijackColor (hP : ℝ) (v : Vox) : Color :=
  if Real.sqrt (((v.x : ℝ) - 0) ^ 2 + ((v.y : ℝ) - (-70)) ^ 2 + ((v.z : ℝ) - 0) ^ 2) <
      hP * 100 then Color.blue
  else Color.white

/-- Initial ribosome colors: `setupMesh` colors every instance white. -/
def initRibosomeColors (voxels : List Vox) : List Color :=
  voxels.map fun _ => Color.white

/-- Initial instance transforms: `setupMesh` places every instance at its
voxel position with unit scale. -/
def initTransforms (voxels : List Vox) : List Transform :=
  voxels.map fun v => { pos := ⟨(v.x : ℚ), (v.y : ℚ), (v.z : ℚ)⟩, scale := ⟨1, 1, 1⟩ }

/-- The per-frame update of the ribosome instance colors: the hijack wave
(when `elapsed > phase1Duration`), the explicit wrap reset to white (when
`elapsed < 100`), and otherwise no write at all. -/
noncomputable def ribosomeFrameColors (elapsed : ℚ) (voxels : List Vox)
    (state : List Color) : List Color :=
  if elapsed > phase1Duration then
    let t2 := (elapsed - phase1Duration) / phase2Duration
    let hP := phaseProgress (6 / 10) 1 t2
    voxels.map fun v => hijackColor ((hP : ℚ) : ℝ) v
  else if elapsed < 100 then
    voxels.map fun _ => Color.white
  else state

/-- The per-frame update of the nucleoid instance transforms: the dissolve
(jitter while `nP < 0.5`, accelerating fall `nP*nP*50`, linear shrink) when
`elapsed > phase1Duration`, the explicit wrap reset to the voxel pose when
`elapsed < 100`, and otherwise no write.  `jitterO i` is the oracle for the
single `Math.random()` draw of iteration `i` (the same jitter is applied to
`x` and `z`, as in the source). -/
def nucleoidFrameTransforms (elapsed : ℚ) (jitterO : ℕ → ℚ) (voxels : List Vox)
    (state : List Transform) : List Transform :=
  if elapsed > phase1Duration then
    let t2 := (elapsed - phase1Duration) / phase2Duration
    let nP := phaseProgress 0 (3 / 10) t2
    voxels.enum.map fun p =>
      let jitter := if nP < 1 / 2 then (jitterO p.1 - 1 / 2) * nP * 4 else 0
      let fall := nP * nP * 50
      let scale := max 0 (1 - nP * (12 / 10))
      { pos := ⟨(p.2.x : ℚ) + jitter, (p.2.y : ℚ) - fall, (p.2.z : ℚ) + jitter⟩,
        scale := ⟨scale, scale, scale⟩ }
  else if elapsed < 100 then
    voxels.map fun v => { pos := ⟨(v.x : ℚ), (v.y : ℚ), (v.z : ℚ)⟩, scale := ⟨1, 1, 1⟩ }
  else state

/-- The whole-group "breathing" rotation
`bacteriumGroup.rotation.z = Math.sin(now * 0.0005) * 0.05`; note it is driven
by the unwrapped wall-clock `now`, not by `elapsed`. -/
noncomputable def bacteriumGroupRotZ (now : ℝ) : ℝ :=
  Real.sin (now * 0.0005) * 0.05

/-- Any pairwise-related list relates the elements at two indices `i < j`
(getElem?-phrased). -/
theorem pairwise_getElem_some {α : Type} {R : α → α → Prop} {l : List α}
    (h : l.Pairwise R) {i j : ℕ} (hij : i < j) {a b : α}
    (ha : l[i]? = some a) (hb : l[j]? = some b) : R a b := by
  rcases List.getElem?_eq_some.mp ha with ⟨hi, rfl⟩
  rcases List.getElem?_eq_some.mp hb with ⟨hj, rfl⟩
  exact List.pairwise_iff_getElem.mp h i j hi hj hij

/-- C6: the landing animator's group vertical offset equals 50 at `t = 0`,
equals `-3` at `t = landingEnd`, remains `-3` for every `t` greater than
`landingEnd`, and in particular equals `-3` at `t = 2 * landingEnd`. -/
theorem landing_offset_values (t : ℚ) :
    landingOffset 0 = 50 ∧ landingOffset landingEnd = -3 ∧
    (landingEnd < t → landingOffset t = -3) ∧ landingOffset (2 * landingEnd) = -3 := by
  refine ⟨?_, ?_, fun ht => ?_, ?_⟩
  · unfold landingOffset landingEnd
    rw [if_pos (by norm_num [Rat.mkRat_eq_div])]
    norm_num [Rat.mkRat_eq_div]
  · unfold landingOffset
    rw [if_neg (lt_irrefl landingEnd)]
  · unfold landingOffset
    rw [if_neg (not_lt.mpr (le_of_lt ht))]
  · unfold landingOffset
    rw [if_neg (not_lt.mpr (by norm_num [landingEnd, Rat.mkRat_eq_div]))]

/-- Witness for C6 at the concrete post-window time `t = 1`. -/
theorem landing_offset_values_witness :
    landingEnd < 1 ∧ landingOffset 1 = -3 :=
  ⟨by decide, (landing_offset_values 1).2.2.1 (by decide)⟩

/-- C7 counterexample: a zero-duration window (`start = end = 1/2`) yields
progress 0, not 1, at global progress 0. -/
theorem zero_duration_window_not_always_one :
    phaseProgress (1 / 2) (1 / 2) 0 ≠ 1 := by
  norm_num [phaseProgress]

/-- C7 amended: for a zero-duration window the progress computation equals the
division-free function that is 1 strictly after the window and 0 otherwise, so
the divisor `end - start = 0` branch is never taken (no division by zero). -/
theorem zero_duration_window_progress (s t : ℚ) :
    phaseProgress s s t = if s < t then 1 else 0 := by
  by_cases h : s < t <;> simp [phaseProgress, h]

/-- C9: the flagella undulation animator never changes a voxel's vertical
coordinate, and a voxel with stored arc-length parameter `t = 0` is rendered
exactly at `(leanX, y, leanZ)` at every frame time (the amplitude
`3.5 * min(1, t/10)` vanishes at the base). -/
theorem flagella_fixes_y_and_base (sinO cosO : ℚ → ℚ) (now : ℚ) (v : FVoxel) :
    (flagellaAnimate sinO cosO now v).pos.y = v.y ∧
    (v.t = 0 → flagellaAnimate sinO cosO now v =
      { pos := ⟨v.leanX, v.y, v.leanZ⟩, scale := ⟨1, 1, 1⟩ }) := by
  constructor
  · rfl
  · intro ht
    unfold flagellaAnimate
    rw [ht]
    norm_num

/-- Witness for C9 at a concrete base voxel and nonzero oracles. -/
theorem flagella_fixes_y_and_base_witness :
    (⟨1, 2, 3, 0, 0, 7, 9⟩ : FVoxel).t = 0 ∧
    flagellaAnimate (fun _ => 1) (fun _ => 1) 5 ⟨1, 2, 3, 0, 0, 7, 9⟩ =
      { pos := ⟨7, 2, 9⟩, scale := ⟨1, 1, 1⟩ } :=
  ⟨rfl, (flagella_fixes_y_and_base (fun _ => 1) (fun _ => 1) 5 ⟨1, 2, 3, 0, 0, 7, 9⟩).2 rfl⟩

/-- C4: in the injection-flow animator a voxel is visible (unit scale, its own
`y` as the rendered `y`) iff `flowFront ≤ y ≤ flowBack`; with front 0 and
back 10 a voxel at `y = 5` is visible while voxels at `y = 15` and `y = -5`
are placed at the off-screen sentinel `(0, -10000, 0)` with zero scale. -/
theorem injection_flow_visibility (cosO sinO : ℚ → ℚ) (spin front back x z : ℚ)
    (oid : Option ℕ) (v : IVoxel) :
    ((injectedFlowTransform cosO sinO spin front back v).scale = ⟨1, 1, 1⟩ ↔
      (front ≤ v.y ∧ v.y ≤ back)) ∧
    ((injectedFlowTransform cosO sinO spin 0 10 ⟨x, 5, z, oid⟩).scale = ⟨1, 1, 1⟩ ∧
      (injectedFlowTransform cosO sinO spin 0 10 ⟨x, 5, z, oid⟩).pos.y = 5) ∧
    injectedFlowTransform cosO sinO spin 0 10 ⟨x, 15, z, oid⟩ =
      { pos := ⟨0, -10000, 0⟩, scale := ⟨0, 0, 0⟩ } ∧
    injectedFlowTransform cosO sinO spin 0 10 ⟨x, -5, z, oid⟩ =
      { pos := ⟨0, -10000, 0⟩, scale := ⟨0, 0, 0⟩ } := by
  refine ⟨?_, ?_, ?_, ?_⟩
  · unfold injectedFlowTransform
    by_cases hin : front ≤ v.y ∧ v.y ≤ back
    · rw [if_pos hin]
      by_cases hs : v.y > -55
      · rw [if_pos hs]
        simp [hin]
      · rw [if_neg hs]
        simp [hin]
    · rw [if_neg hin]
      simp [hin]
  · constructor
    · unfold injectedFlowTransform
      rw [if_pos (by norm_num), if_pos (by norm_num)]
    · unfold injectedFlowTransform
      rw [if_pos (by norm_num), if_pos (by norm_num)]
  · unfold injectedFlowTransform
    rw [if_neg (by norm_num)]
  · unfold injectedFlowTransform
    rw [if_neg (by norm_num)]

/-- C5: the hijack wave colors every ribosome instance white at progress 0,
and at progress 1 colors an instance blue exactly when its squared Euclidean
distance to the infection center `(0, -70, 0)` is below `100^2` (equivalently,
distance below the maximum radius 100), white otherwise. -/
theorem hijack_wave_endpoints :
    (∀ v : Vox, hijackColor 0 v = Color.white) ∧
    (∀ v : Vox, (hijackColor 1 v = Color.blue ↔
        ((v.x : ℝ) - 0) ^ 2 + ((v.y : ℝ) - (-70)) ^ 2 + ((v.z : ℝ) - 0) ^ 2 < 100 ^ 2) ∧
      (hijackColor 1 v = Color.white ↔
        ¬ (((v.x : ℝ) - 0) ^ 2 + ((v.y : ℝ) - (-70)) ^ 2 + ((v.z : ℝ) - 0) ^ 2 < 100 ^ 2))) := by
  constructor
  · intro v
    unfold hijackColor
    rw [zero_mul, if_neg (not_lt.mpr (Real.sqrt_nonneg _))]
  · intro v
    have key : Real.sqrt (((v.x : ℝ) - 0) ^ 2 + ((v.y : ℝ) - (-70)) ^ 2 + ((v.z : ℝ) - 0) ^ 2) <
        (1 : ℝ) * 100 ↔
        ((v.x : ℝ) - 0) ^ 2 + ((v.y : ℝ) - (-70)) ^ 2 + ((v.z : ℝ) - 0) ^ 2 < 100 ^ 2 := by
      rw [one_mul]
      exact Real.sqrt_lt' (by norm_num)
    unfold hijackColor
    by_cases hd :
        ((v.x : ℝ) - 0) ^ 2 + ((v.y : ℝ) - (-70)) ^ 2 + ((v.z : ℝ) - 0) ^ 2 < 100 ^ 2
    · rw [if_pos (key.mpr hd)]
      exact ⟨⟨fun _ => hd, fun _ => rfl⟩,
             ⟨fun hcon => absurd hcon (by simp), fun hcon => absurd hd hcon⟩⟩
    · rw [if_neg (fun hcon => hd (key.mp hcon))]
      exact ⟨⟨fun hcon => absurd hcon (by simp), fun hcon => absurd hcon hd⟩,
             ⟨fun _ => hd, fun _ => rfl⟩⟩

/-- C3 counterexample: the whole-group motion is a function of the unwrapped
clock `now`, so after exactly one full `totalDuration` it does not return to
its value at `now = 0` (here `rotation.z` is `sin(11) * 0.05 < 0 ≠ 0`). -/
theorem group_motion_differs_after_one_cycle :
    bacteriumGroupRotZ ((totalDuration : ℚ) : ℝ) ≠ bacteriumGroupRotZ 0 := by
  have harg : ((totalDuration : ℚ) : ℝ) * 0.0005 = 11 := by
    norm_num [totalDuration, phase1Duration, phase2Duration]
  have hsin : Real.sin 11 < 0 := by
    have hpi1 : (3.141592 : ℝ) < Real.pi := Real.pi_gt_d6
    have hpi2 : Real.pi < 3.15 := Real.pi_lt_d2
    have h1 : 0 < 11 - 3 * Real.pi := by nlinarith
    have h2 : 11 - 3 * Real.pi < Real.pi := by nlinarith
    have h3 : 0 < Real.sin (11 - 3 * Real.pi) := Real.sin_pos_of_pos_of_lt_pi h1 h2
    have e1 : Real.sin (11 - 2 * Real.pi) = Real.sin 11 := Real.sin_sub_two_pi 11
    have e2 : Real.sin (11 - 2 * Real.pi - Real.pi) = -Real.sin (11 - 2 * Real.pi) :=
      Real.sin_sub_pi _
    have e3 : (11 : ℝ) - 2 * Real.pi - Real.pi = 11 - 3 * Real.pi := by ring
    rw [e3, e1] at e2
    linarith
  unfold bacteriumGroupRotZ
  rw [harg, zero_mul, Real.sin_zero, zero_mul]
  intro hcon
  nlinarith

/-- C3 amended: at the wrap boundary (`elapsed = 0`) the explicit reset block
restores the elapsed-driven irreversible state — every ribosome color returns
to the initial white and every nucleoid transform to its initial voxel pose —
regardless of what the previous cycle left in the instance arrays. -/
theorem wrap_reset_restores_elapsed_driven_state (rvox nvox : List Vox)
    (cstate : List Color) (tstate : List Transform) (jitterO : ℕ → ℚ) :
    ribosomeFrameColors 0 rvox cstate = initRibosomeColors rvox ∧
    nucleoidFrameTransforms 0 jitterO nvox tstate = initTransforms nvox := by
  constructor
  · unfold ribosomeFrameColors initRibosomeColors
    rw [if_neg (by norm_num [phase1Duration]), if_pos (by norm_num)]
  · unfold nucleoidFrameTransforms initTransforms
    rw [if_neg (by norm_num [phase1Duration]), if_pos (by norm_num)]

/-- C2: for a 100-voxel head-genome list at drain progress `0.37`, the
`floor(100 * 0.37) = 37` instances at indices `0..36` are hidden at the
sentinel `(0, 10000, 0)` with zero scale, and every index in `[37, 100)` is
visible at its original `x`/`z`, `y` lowered by `0.37 * 2.0`, with unit
scale. -/
theorem headDNA_drain_at_037 (voxels : List Vox) (hlen : voxels.length = 100)
    (i : ℕ) (hi : i < 100) :
    (i < 37 → (headDNADrainFrame (37 / 100) voxels)[i]? =
        some { pos := ⟨0, 10000, 0⟩, scale := ⟨0, 0, 0⟩ }) ∧
    (37 ≤ i → ∀ v : Vox, voxels[i]? = some v →
        (headDNADrainFrame (37 / 100) voxels)[i]? =
          some { pos := ⟨(v.x : ℚ), (v.y : ℚ) - 37 / 100 * 2, (v.z : ℚ)⟩,
                 scale := ⟨1, 1, 1⟩ }) := by
  have hrange : (List.range voxels.length)[i]? = some i := by
    rw [hlen]
    exact List.getElem?_range hi
  have hmap : (headDNADrainFrame (37 / 100) voxels)[i]? = some (
      if (i : ℤ) < ⌊(voxels.length : ℚ) * (37 / 100)⌋ then
        { pos := ⟨0, 10000, 0⟩, scale := ⟨0, 0, 0⟩ }
      else
        { pos := ⟨((voxels.getD i ⟨0, 0, 0⟩).x : ℚ),
                  ((voxels.getD i ⟨0, 0, 0⟩).y : ℚ) - 37 / 100 * 2,
                  ((voxels.getD i ⟨0, 0, 0⟩).z : ℚ)⟩, scale := ⟨1, 1, 1⟩ }) := by
    unfold headDNADrainFrame
    rw [List.getElem?_map, hrange]
    rfl
  have hfloor : ⌊(voxels.length : ℚ) * (37 / 100)⌋ = 37 := by
    rw [hlen]
    norm_num
  constructor
  · intro h37
    rw [hmap, if_pos (by rw [hfloor]; exact_mod_cast h37)]
  · intro h37 v hv
    have hnot : ¬ ((i : ℤ) < ⌊(voxels.length : ℚ) * (37 / 100)⌋) := by
      rw [hfloor]
      omega
    rw [hmap, if_neg hnot, List.getD_eq_getElem?_getD, hv]
    rfl

/-- Concrete 100-voxel list used to instantiate `headDNA_drain_at_037`. -/
def drainTestVoxels : List Vox :=
  (List.range 100).map fun k => ⟨0, 100 - (k : ℤ), 0⟩

/-- Witness for C2: a hidden index (0) and a visible index (50) of the
concrete 100-voxel list. -/
theorem headDNA_drain_at_037_witness :
    drainTestVoxels.length = 100 ∧
    drainTestVoxels[50]? = some ⟨0, 50, 0⟩ ∧
    (headDNADrainFrame (37 / 100) drainTestVoxels)[0]? =
      some { pos := ⟨0, 10000, 0⟩, scale := ⟨0, 0, 0⟩ } ∧
    (headDNADrainFrame (37 / 100) drainTestVoxels)[50]? =
      some { pos := ⟨((0 : ℤ) : ℚ), ((50 : ℤ) : ℚ) - 37 / 100 * 2, ((0 : ℤ) : ℚ)⟩,
             scale := ⟨1, 1, 1⟩ } :=
  ⟨by decide, by decide,
   (headDNA_drain_at_037 drainTestVoxels (by decide) 0 (by decide)).1 (by decide),
   (headDNA_drain_at_037 drainTestVoxels (by decide) 50 (by decide)).2 (by decide)
     ⟨0, 50, 0⟩ (by decide)⟩

/-- C1: both `generateHeadDNAVoxels` and `generateInjectedDNAVoxels` return
lists sorted by descending vertical coordinate: they are `Sorted` under the
descending-`y` relation, every consecutive pair is non-increasing in `y`, and
the voxel at index 0 is topmost (its `y` bounds every other index). -/
theorem genome_lists_sorted_descending (r e : ℤ) (adm : ℤ → ℤ → ℤ → Bool)
    (cosO sinO : ℚ → ℚ) (piQ : ℚ) (admP : ℤ → ℤ → ℤ → Bool) (idO : ℤ → ℤ → ℤ → ℕ) :
    List.Sorted descY (generateHeadDNAVoxels r e adm) ∧
    List.Sorted descYQ (generateInjectedDNAVoxels cosO sinO piQ admP idO) ∧
    (∀ i : ℕ, ∀ a b : Vox, (generateHeadDNAVoxels r e adm)[i]? = some a →
      (generateHeadDNAVoxels r e adm)[i + 1]? = some b → b.y ≤ a.y) ∧
    (∀ j : ℕ, ∀ a b : Vox, (generateHeadDNAVoxels r e adm)[0]? = some a →
      (generateHeadDNAVoxels r e adm)[j]? = some b → b.y ≤ a.y) ∧
    (∀ i : ℕ, ∀ a b : IVoxel,
      (generateInjectedDNAVoxels cosO sinO piQ admP idO)[i]? = some a →
      (generateInjectedDNAVoxels cosO sinO piQ admP idO)[i + 1]? = some b → b.y ≤ a.y) ∧
    (∀ j : ℕ, ∀ a b : IVoxel,
      (generateInjectedDNAVoxels cosO sinO piQ admP idO)[0]? = some a →
      (generateInjectedDNAVoxels cosO sinO piQ admP idO)[j]? = some b → b.y ≤ a.y) := by
  have hH : List.Sorted descY (generateHeadDNAVoxels r e adm) :=
    List.sorted_insertionSort descY _
  have hI : List.Sorted descYQ (generateInjectedDNAVoxels cosO sinO piQ admP idO) :=
    List.sorted_insertionSort descYQ _
  refine ⟨hH, hI, ?_, ?_, ?_, ?_⟩
  · intro i a b ha hb
    exact pairwise_getElem_some hH (Nat.lt_succ_self i) ha hb
  · intro j a b ha hb
    rcases Nat.eq_zero_or_pos j with hj | hj
    · subst hj
      rw [ha] at hb
      cases hb
      exact le_refl _
    · exact pairwise_getElem_some hH hj ha hb
  · intro i a b ha hb
    exact pairwise_getElem_some hI (Nat.lt_succ_self i) ha hb
  · intro j a b ha hb
    rcases Nat.eq_zero_or_pos j with hj | hj
    · subst hj
      rw [ha] at hb
      cases hb
      exact le_refl _
    · exact pairwise_getElem_some hI hj ha hb

/-- Witness for C1: the first two entries of the head-genome list at
`radius = 4`, `elongation = 0`, with the admission oracle constantly true. -/
theorem genome_lists_sorted_descending_witness :
    (generateHeadDNAVoxels 4 0 (fun _ _ _ => true))[0]? = some ⟨-1, 31, -1⟩ ∧
    (generateHeadDNAVoxels 4 0 (fun _ _ _ => true))[1]? = some ⟨-1, 31, 0⟩ ∧
    ((⟨-1, 31, 0⟩ : Vox).y ≤ (⟨-1, 31, -1⟩ : Vox).y) :=
  ⟨by decide, by decide,
   (genome_lists_sorted_descending 4 0 (fun _ _ _ => true) (fun _ => 0) (fun _ => 0) 0
       (fun _ _ _ => true) (fun _ _ _ => 0)).2.2.1 0 ⟨-1, 31, -1⟩ ⟨-1, 31, 0⟩
     (by decide) (by decide)⟩

/-- Unpack membership in one of the triple-scan generators into the emission
guard at the pre-offset lattice coordinates. -/
theorem mem_scan_emit {emit : ℤ → ℤ → ℤ → Bool} {xs ys zs : List ℤ} {v : Vox}
    (hv : v ∈ xs.flatMap fun x => ys.flatMap fun y => zs.filterMap fun z =>
      if emit x y z then some ⟨x, y + 30, z⟩ else none) :
    emit v.x (v.y - 30) v.z = true := by
  rcases List.mem_flatMap.mp hv with ⟨x, _, hv2⟩
  rcases List.mem_flatMap.mp hv2 with ⟨y, _, hv3⟩
  rcases List.mem_filterMap.mp hv3 with ⟨z, _, hif⟩
  cases hemit : emit x y z with
  | false => rw [hemit] at hif; exact absurd hif (by simp)
  | true =>
    rw [hemit] at hif
    simp only [if_true] at hif
    cases hif
    simpa using hemit

/-- C8: every voxel emitted by `generateCapsidVoxels` satisfies the
elongated-sphere bound, the octahedral bound and the surface condition at its
pre-offset coordinates `(x, y - 30, z)`, and every voxel emitted by
`generateHeadDNAVoxels` satisfies the filled-structure bounds and its
noise-or-random admission gate there. -/
theorem generators_emit_members (r e : ℤ) (adm : ℤ → ℤ → ℤ → Bool) :
    (∀ v ∈ generateCapsidVoxels r e,
      sphereCheck r e v.x (v.y - 30) v.z = true ∧
      octaCheck r e v.x (v.y - 30) v.z = true ∧
      isSurface r e v.x (v.y - 30) v.z = true) ∧
    (∀ w ∈ generateHeadDNAVoxels r e adm,
      headSphereCheck r e w.x (w.y - 30) w.z = true ∧
      octaCheck r e w.x (w.y - 30) w.z = true ∧
      adm w.x (w.y - 30) w.z = true) := by
  constructor
  · intro v hv
    have hemit : capsidEmit r e v.x (v.y - 30) v.z = true := mem_scan_emit hv
    unfold capsidEmit at hemit
    simp only [Bool.and_eq_true] at hemit
    exact ⟨hemit.1.1, hemit.1.2, hemit.2⟩
  · intro w hw
    have hw2 : w ∈ (intRange (-r) r).flatMap fun x =>
        (intRange (-r - e) (r + e)).flatMap fun y =>
          (intRange (-r) r).filterMap fun z =>
            if headEmit r e adm x y z then some ⟨x, y + 30, z⟩ else none :=
      (List.perm_insertionSort descY _).mem_iff.mp hw
    have hemit : headEmit r e adm w.x (w.y - 30) w.z = true := mem_scan_emit hw2
    unfold headEmit at hemit
    simp only [Bool.and_eq_true] at hemit
    exact ⟨hemit.1.1, hemit.1.2, hemit.2⟩

/-- Witness for C8: a concrete capsid voxel at `radius = 2` and a concrete
head voxel at `radius = 3` (admission oracle constantly true). -/
theorem generators_emit_members_witness :
    (⟨1, 30, 0⟩ : Vox) ∈ generateCapsidVoxels 2 0 ∧
    (sphereCheck 2 0 1 (30 - 30) 0 = true ∧ octaCheck 2 0 1 (30 - 30) 0 = true ∧
      isSurface 2 0 1 (30 - 30) 0 = true) ∧
    (⟨0, 30, 0⟩ : Vox) ∈ generateHeadDNAVoxels 3 0 (fun _ _ _ => true) ∧
    (headSphereCheck 3 0 0 (30 - 30) 0 = true ∧ octaCheck 3 0 0 (30 - 30) 0 = true ∧
      (fun _ _ _ => true) (0 : ℤ) ((30 : ℤ) - 30) (0 : ℤ) = true) :=
  ⟨by decide,
   (generators_emit_members 2 0 (fun _ _ _ => true)).1 ⟨1, 30, 0⟩ (by decide),
   by decide,
   (generators_emit_members 3 0 (fun _ _ _ => true)).2 ⟨0, 30, 0⟩ (by decide)⟩

/-- During Takeover (`elapsed > phase1Duration`) the injected-DNA frame is
exactly the replication `zipWith`: only pool voxels (`y < -55`) are rewritten,
every other index keeps its previous transform. -/
theorem injectedDNAFrame_takeover (cosO sinO : ℚ → ℚ) (e : ℚ)
    (he : phase1Duration < e) (voxels : List IVoxel) (state : List Transform) :
    injectedDNAFrame cosO sinO e voxels state =
      List.zipWith (fun v s => if v.y < -55 then
        injectedReplicationTransform ((e - phase1Duration) / phase2Duration) v else s)
        voxels state := by
  unfold injectedDNAFrame
  rw [if_neg (by linarith), if_pos he]

/-- C10: once the Takeover macro-phase has begun, the injected-genome stream
voxels (generated `y ≥ -55`) are never rewritten: folding any sequence of
frames whose elapsed times all exceed `phase1Duration` leaves the transform at
every stream index exactly as the last Injection-phase frame left it. -/
theorem takeover_preserves_stream_transforms (cosO sinO : ℚ → ℚ)
    (voxels : List IVoxel) (state : List Transform)
    (hlen : state.length = voxels.length)
    (i : ℕ) (v : IVoxel) (hv : voxels[i]? = some v) (hy : -55 ≤ v.y)
    (es : List ℚ) (hes : ∀ e ∈ es, phase1Duration < e) :
    (es.foldl (fun s e => injectedDNAFrame cosO sinO e voxels s) state)[i]? = state[i]? := by
  revert hlen hes
  induction es generalizing state with
  | nil =>
    intro hlen hes
    rfl
  | cons e rest ih =>
    intro hlen hes
    have he : phase1Duration < e := hes e (List.mem_cons_self e rest)
    have hrest : ∀ e2 ∈ rest, phase1Duration < e2 :=
      fun e2 h2 => hes e2 (List.mem_cons_of_mem e h2)
    have hnewlen : (injectedDNAFrame cosO sinO e voxels state).length = voxels.length := by
      rw [injectedDNAFrame_takeover cosO sinO e he, List.length_zipWith, hlen, min_self]
    have hkeep : (injectedDNAFrame cosO sinO e voxels state)[i]? = state[i]? := by
      rw [injectedDNAFrame_takeover cosO sinO e he, List.getElem?_zipWith, hv]
      cases hs : state[i]? with
      | none => rfl
      | some s => exact congrArg some (if_neg (not_lt.mpr hy))
    rw [List.foldl_cons, ih (injectedDNAFrame cosO sinO e voxels state) hnewlen hrest, hkeep]

/-- Witness for C10: a one-voxel stream list (`y = -50 ≥ -55`) whose stored
transform survives a Takeover frame at `elapsed = 13000`. -/
theorem takeover_preserves_stream_transforms_witness :
    ([(⟨0, -50, 0, some 0⟩ : IVoxel)])[0]? = some ⟨0, -50, 0, some 0⟩ ∧
    (-55 : ℚ) ≤ (-50 : ℚ) ∧
    (([(13000 : ℚ)]).foldl
        (fun s e => injectedDNAFrame (fun _ => 0) (fun _ => 0) e [⟨0, -50, 0, some 0⟩] s)
        [{ pos := ⟨1, 2, 3⟩, scale := ⟨1, 1, 1⟩ }])[0]? =
      ([{ pos := ⟨1, 2, 3⟩, scale := ⟨1, 1, 1⟩ }] : List Transform)[0]? :=
  ⟨by decide, by decide,
   takeover_preserves_stream_transforms (fun _ => 0) (fun _ => 0) [⟨0, -50, 0, some 0⟩]
     [{ pos := ⟨1, 2, 3⟩, scale := ⟨1, 1, 1⟩ }] (by decide) 0 ⟨0, -50, 0, some 0⟩
     (by decide) (by decide) [13000] (by decide)⟩
